import Mathlib

/-!
Verification development for the tg_parser repository.

The Python sources (filters.py, db.py, main.py) are shallowly embedded:
strings are lists of characters, the regex substitutions of the sanitizer
are modelled by an explicit left-to-right scanner with the concrete
matchers of each pattern, the per-item bodies of the two scan loops are
pure step functions parameterised by the outcome of the network send, and
the md5 fingerprint is an arbitrary function parameter (the claims under
study quantify over the fingerprints, not over md5 internals).
Case folding is modelled on ASCII, which is where the repository's
case-insensitive comparisons operate.
-/

/-- Python whitespace class (ASCII part), as matched by the regex class. -/
def isSpace (c : Char) : Bool :=
  c == ' ' || c == '\t' || c == '\n' || c == '\r' ||
  c == Char.ofNat 11 || c == Char.ofNat 12

/-- Python word-character class (ASCII part). -/
def isWordChar (c : Char) : Bool :=
  (97 ≤ c.toNat && c.toNat ≤ 122) || (65 ≤ c.toNat && c.toNat ≤ 90) ||
  (48 ≤ c.toNat && c.toNat ≤ 57) || c == '_'

/-- ASCII lower-casing of one character, as Python str.lower does on ASCII. -/
def lowerChar (c : Char) : Char :=
  if 65 ≤ c.toNat ∧ c.toNat ≤ 90 then Char.ofNat (c.toNat + 32) else c

/-- ASCII lower-casing of a string. -/
def lowerStr (s : List Char) : List Char := s.map lowerChar

/-- Does p occur at the start of s (literal match)? -/
def startsW : List Char → List Char → Bool
  | [], _ => true
  | _ :: _, [] => false
  | p :: ps, c :: cs => p == c && startsW ps cs

/-- Does p occur somewhere inside s (Python "in" on strings)? -/
def containsSub : List Char → List Char → Bool
  | p, [] => p.isEmpty
  | p, c :: cs => startsW p (c :: cs) || containsSub p cs

/-- Case-insensitive occurrence of p inside s. -/
def containsCI (p s : List Char) : Bool :=
  containsSub (lowerStr p) (lowerStr s)

/-- Length of the longest run of characters satisfying p at the head. -/
def spanLen (p : Char → Bool) : List Char → Nat
  | [] => 0
  | c :: cs => if p c then 1 + spanLen p cs else 0

/-- One left-to-right pass of re.sub: at each position the matcher either
matches (returning the replacement and the number of characters consumed,
always at least one for the patterns modelled here) and scanning resumes
after the match, or the character is kept.  Fuel keeps the recursion
structural; it is instantiated with the input length, which suffices
because every step consumes at least one character. -/
def scanReplF (m : List Char → Option (List Char × Nat)) : Nat → List Char → List Char
  | _, [] => []
  | 0, s => s
  | Nat.succ fuel, c :: cs =>
    match m (c :: cs) with
    | some (r, n) => r ++ scanReplF m fuel ((c :: cs).drop (max n 1))
    | none => c :: scanReplF m fuel cs

/-- re.sub with matcher m over the whole string. -/
def reSub (m : List Char → Option (List Char × Nat)) (s : List Char) : List Char :=
  scanReplF m s.length s

/-- Matcher for the pattern http\S+|t\.me/\S+ used by clean_text. -/
def urlTmeMatch (s : List Char) : Option (List Char × Nat) :=
  if startsW ('h' :: 't' :: 't' :: 'p' :: []) s &&
     0 < spanLen (fun c => !isSpace c) (s.drop 4) then
    some ([], 4 + spanLen (fun c => !isSpace c) (s.drop 4))
  else if startsW ('t' :: '.' :: 'm' :: 'e' :: '/' :: []) s &&
     0 < spanLen (fun c => !isSpace c) (s.drop 5) then
    some ([], 5 + spanLen (fun c => !isSpace c) (s.drop 5))
  else none

/-- Matcher for the mention pattern @\w+ used by clean_text. -/
def mentionMatch (s : List Char) : Option (List Char × Nat) :=
  match s with
  | '@' :: rest =>
    if 0 < spanLen isWordChar rest then some ([], 1 + spanLen isWordChar rest) else none
  | _ => none

/-- Matcher for one escaped blacklist phrase compiled with IGNORECASE.
An empty phrase matches nothing (re.sub with an empty escaped pattern
leaves the text unchanged). -/
def phraseMatch (p : List Char) (s : List Char) : Option (List Char × Nat) :=
  if p.isEmpty then none
  else if lowerStr (s.take p.length) == lowerStr p then some ([], p.length)
  else none

/-- re.sub of \s+ by a single space: every maximal whitespace run becomes
one space character. -/
def collapseWsAux : Bool → List Char → List Char
  | _, [] => []
  | prevSp, c :: cs =>
    if isSpace c then
      if prevSp then collapseWsAux true cs else ' ' :: collapseWsAux true cs
    else c :: collapseWsAux false cs

def collapseWs (s : List Char) : List Char := collapseWsAux false s

/-- Python str.strip: drop whitespace at both ends. -/
def stripWs (s : List Char) : List Char :=
  ((s.dropWhile isSpace).reverse.dropWhile isSpace).reverse

/-- filters.clean_text: remove URL-like tokens and deep links, remove
mentions, remove each blacklist phrase case-insensitively in sequence,
collapse whitespace, trim, and finally append the signature (if truthy)
after two newlines. -/
def clean_text (text : List Char) (blacklist : List (List Char))
    (signature : Option (List Char)) : List Char :=
  if text.isEmpty then []
  else
    let t1 := reSub urlTmeMatch text
    let t2 := reSub mentionMatch t1
    let t3 := blacklist.foldl (fun t p => reSub (phraseMatch p) t) t2
    let t4 := stripWs (collapseWs t3)
    match signature with
    | some sig => if sig.isEmpty then t4 else t4 ++ '\n' :: '\n' :: sig
    | none => t4

/-- Matcher for the markdown-link pattern of remove_hyperlinks: a bracketed
nonempty label with no closing bracket inside, then a parenthesised
nonempty url with no closing parenthesis inside; replaced by the label. -/
def mdMatch (s : List Char) : Option (List Char × Nat) :=
  match s with
  | '[' :: rest =>
    let a := spanLen (fun c => c != ']') rest
    if a = 0 then none
    else
      match rest.drop a with
      | ']' :: '(' :: rest2 =>
        let b := spanLen (fun c => c != ')') rest2
        if b = 0 then none
        else
          match rest2.drop b with
          | ')' :: _ => some (rest.take a, a + b + 4)
          | _ => none
      | _ => none
  | _ => none

/-- Matcher for the HTML anchor pattern of remove_hyperlinks; replaced by
the anchor text. -/
def htmlAMatch (s : List Char) : Option (List Char × Nat) :=
  match s with
  | '<' :: 'a' :: rest =>
    let w := spanLen isSpace rest
    if w = 0 then none
    else if startsW ('h' :: 'r' :: 'e' :: 'f' :: '=' :: '\"' :: []) (rest.drop w) then
      let rest2 := (rest.drop w).drop 6
      let q := spanLen (fun c => c != '\"') rest2
      if q = 0 then none
      else
        match rest2.drop q with
        | '\"' :: '>' :: rest3 =>
          let t := spanLen (fun c => c != '<') rest3
          if t = 0 then none
          else if startsW ('<' :: '/' :: 'a' :: '>' :: []) (rest3.drop t) then
            some (rest3.take t, 2 + w + 6 + q + 2 + t + 4)
          else none
        | _ => none
    else none
  | _ => none

/-- Matcher for the bare URL pattern https?://\S+ of remove_hyperlinks. -/
def bareUrlMatch (s : List Char) : Option (List Char × Nat) :=
  if startsW ('h' :: 't' :: 't' :: 'p' :: 's' :: ':' :: '/' :: '/' :: []) s &&
     0 < spanLen (fun c => !isSpace c) (s.drop 8) then
    some ([], 8 + spanLen (fun c => !isSpace c) (s.drop 8))
  else if startsW ('h' :: 't' :: 't' :: 'p' :: ':' :: '/' :: '/' :: []) s &&
     0 < spanLen (fun c => !isSpace c) (s.drop 7) then
    some ([], 7 + spanLen (fun c => !isSpace c) (s.drop 7))
  else none

/-- main.remove_hyperlinks: unwrap markdown links, unwrap HTML anchors,
delete bare URLs, then trim whitespace. -/
def remove_hyperlinks (text : List Char) : List Char :=
  if text.isEmpty then text
  else stripWs (reSub bareUrlMatch (reSub htmlAMatch (reSub mdMatch text)))

/-- main.contains_keywords: false on empty text or empty keyword list,
otherwise true iff some keyword occurs case-insensitively in the text. -/
def contains_keywords (text : List Char) (keywords : List (List Char)) : Bool :=
  if text.isEmpty || keywords.isEmpty then false
  else keywords.any (fun kw => containsSub (lowerStr kw) (lowerStr text))

/-- main.get_message_hash is md5 over the utf-8 bytes.  The claims under
study quantify over fingerprints, so the digest is passed as a function
parameter (called hashF below) rather than re-implemented bit by bit. -/
inductive MediaKind
  | photo
  | document
  | other
deriving DecidableEq

/-- One message yielded by iter_messages, with the fields the loop body
reads.  Absent (None) text is the empty list, matching Python falsiness. -/
structure ChanMsg where
  message : List Char
  text : List Char
  caption : List Char
  media : Option MediaKind
deriving DecidableEq

/-- The publisher invocations the loop body can make. -/
inductive PubAction
  | sendPhoto (caption : Option (List Char))
  | sendDocument (caption : Option (List Char))
  | forward
  | sendMessage (txt : List Char)
  | fallbackText (txt : List Char)
deriving DecidableEq

/-- Outcome of one transport send, as surfaced to the loop body. -/
inductive SendResult
  | ok
  | floodWait (seconds : Nat)
  | failed
deriving DecidableEq

/-- Observable effect of processing one item: the ledger afterwards,
whether config.save ran, the publisher calls made in order, and the
sleep requested by a flood wait. -/
structure StepOut where
  sentHashes : List (List Char)
  saved : Bool
  pubs : List PubAction
  slept : Option Nat
deriving DecidableEq

/-- msg.text or msg.caption or the empty string. -/
def chanContent (m : ChanMsg) : List Char :=
  if m.text.isEmpty then (if m.caption.isEmpty then [] else m.caption) else m.text

/-- The cleaned content the loop hashes and filters. -/
def chanClean (m : ChanMsg) : List Char := remove_hyperlinks (chanContent m)

/-- Fingerprint input of a channel item: cleaned content concatenated with
the string form of the media reference (mediaS models str(msg.media)). -/
def chanHash (hashF : List Char → List Char) (mediaS : Option MediaKind → List Char)
    (m : ChanMsg) : List Char :=
  hashF (chanClean m ++ mediaS m.media)

/-- The publisher call parse_channels makes for one eligible message. -/
def chanAct (m : ChanMsg) : PubAction :=
  match m.media with
  | some MediaKind.photo =>
    PubAction.sendPhoto
      (if (chanClean m).isEmpty then none else some ((chanClean m).take 1024))
  | some MediaKind.document =>
    PubAction.sendDocument
      (if (chanClean m).isEmpty then none else some ((chanClean m).take 1024))
  | some MediaKind.other => PubAction.forward
  | none => PubAction.sendMessage ((chanClean m).take 4000)

/-- The body of parse_channels for one message: skip empty items, skip
fingerprints already in the ledger, apply the keyword gate, publish, and
only on success record the fingerprint and persist; a flood wait sleeps
without recording; any other failure attempts one plain-text fallback
(whose own result does not change the state either way). -/
def processChanMsg (hashF : List Char → List Char) (mediaS : Option MediaKind → List Char)
    (keywords : List (List Char)) (sentHashes : List (List Char))
    (m : ChanMsg) (sendRes : SendResult) (_fbRes : SendResult) : StepOut :=
  if m.message.isEmpty && m.media.isNone then
    { sentHashes := sentHashes, saved := false, pubs := [], slept := none }
  else if chanHash hashF mediaS m ∈ sentHashes then
    { sentHashes := sentHashes, saved := false, pubs := [], slept := none }
  else if keywords.isEmpty || contains_keywords (chanClean m) keywords then
    match sendRes with
    | SendResult.ok =>
      { sentHashes := chanHash hashF mediaS m :: sentHashes, saved := true,
        pubs := [chanAct m], slept := none }
    | SendResult.floodWait s =>
      { sentHashes := sentHashes, saved := false, pubs := [chanAct m], slept := some s }
    | SendResult.failed =>
      if (chanClean m).isEmpty then
        { sentHashes := sentHashes, saved := false, pubs := [chanAct m], slept := none }
      else
        { sentHashes := sentHashes, saved := false,
          pubs := [chanAct m, PubAction.fallbackText ((chanClean m).take 4000)],
          slept := none }
  else
    { sentHashes := sentHashes, saved := false, pubs := [], slept := none }

/-- The outgoing site message: the 1000-character snippet with an ellipsis
always appended, then the (dead) 4000-character truncation branch. -/
def site_message (text : List Char) : List Char :=
  let m := text.take 1000 ++ ('.' :: '.' :: '.' :: [])
  if 4000 < m.length then m.take 4000 ++ ('.' :: '.' :: '.' :: []) else m

/-- The body of parse_sites for one fetched page with extracted visible
text: skip empty pages and known fingerprints, apply the keyword gate on
the full text, send the snippet message, and record plus persist only on
success; flood wait sleeps, any other send failure is logged only. -/
def processSite (hashF : List Char → List Char) (keywords : List (List Char))
    (sentHashes : List (List Char)) (pageText : List Char)
    (sendRes : SendResult) : StepOut :=
  if pageText.isEmpty then
    { sentHashes := sentHashes, saved := false, pubs := [], slept := none }
  else if hashF (pageText.take 1000) ∈ sentHashes then
    { sentHashes := sentHashes, saved := false, pubs := [], slept := none }
  else if keywords.isEmpty || contains_keywords pageText keywords then
    match sendRes with
    | SendResult.ok =>
      { sentHashes := hashF (pageText.take 1000) :: sentHashes, saved := true,
        pubs := [PubAction.sendMessage (site_message pageText)], slept := none }
    | SendResult.floodWait s =>
      { sentHashes := sentHashes, saved := false,
        pubs := [PubAction.sendMessage (site_message pageText)], slept := some s }
    | SendResult.failed =>
      { sentHashes := sentHashes, saved := false,
        pubs := [PubAction.sendMessage (site_message pageText)], slept := none }
  else
    { sentHashes := sentHashes, saved := false, pubs := [], slept := none }

/-- The globals read and written by start_parsing_handler: the configured
destination, the parsing_active flag, and whether a loop task exists. -/
structure BotState where
  targetChannel : Option (List Char)
  parsingActive : Bool
  taskScheduled : Bool
deriving DecidableEq

/-- The three answers the start handler can give. -/
inductive StartReply
  | noTarget
  | alreadyRunning
  | started
deriving DecidableEq

/-- Python truthiness of the optional destination string. -/
def truthyTarget : Option (List Char) → Bool
  | none => false
  | some s => !s.isEmpty

/-- main.start_parsing_handler: reject without a destination, reject when
already active, otherwise raise the flag and schedule the loop task. -/
def start_parsing_handler (st : BotState) : BotState × StartReply :=
  if !truthyTarget st.targetChannel then (st, StartReply.noTarget)
  else if st.parsingActive then (st, StartReply.alreadyRunning)
  else ({ st with parsingActive := true, taskScheduled := true }, StartReply.started)

/-- The well-typed in-memory configuration. -/
structure Cfg where
  channels : List (List Char)
  sites : List (List Char)
  keywords : List (List Char)
  targetChannel : Option (List Char)
  sentHashes : List (List Char)
deriving DecidableEq

/-- Config.clean_sources: when the destination is truthy and occurs in the
channel list, list.remove deletes its first occurrence. -/
def Cfg.clean_sources (c : Cfg) : Cfg :=
  match c.targetChannel with
  | none => c
  | some t =>
    if !t.isEmpty && c.channels.contains t then
      { c with channels := c.channels.erase t }
    else c

/-- Config.save runs clean_sources and then persists; the persisted
document and the in-memory state after saving are both this value. -/
def Cfg.save (c : Cfg) : Cfg := c.clean_sources

/-- The success path of Config.load on a well-typed document: assign the
fields and run clean_sources. -/
def Cfg.load_ok (doc : Cfg) : Cfg := doc.clean_sources

/-- db.add_blacklist: INSERT OR IGNORE against the UNIQUE phrase column. -/
def add_blacklist (phrase : List Char) (tbl : List (List Char)) : List (List Char) :=
  if phrase ∈ tbl then tbl else tbl ++ [phrase]

/-- db.get_blacklist: every stored phrase, lower-cased on the way out. -/
def get_blacklist (tbl : List (List Char)) : List (List Char) := tbl.map lowerStr

/-- JSON values, for the dynamically-typed part of Config.load. -/
inductive JVal
  | null
  | jbool (b : Bool)
  | jnum (n : Int)
  | jstr (s : List Char)
  | jarr (xs : List JVal)
  | jobj (fields : List (List Char × JVal))

/-- Structural equality on JSON values, modelling the Python equality the
membership and removal operations of clean_sources use. -/
def jbeq : JVal → JVal → Bool
  | JVal.null, JVal.null => true
  | JVal.jbool a, JVal.jbool b => a == b
  | JVal.jnum a, JVal.jnum b => a == b
  | JVal.jstr a, JVal.jstr b => a == b
  | JVal.jarr (x :: xs), JVal.jarr (y :: ys) =>
    jbeq x y && jbeq (JVal.jarr xs) (JVal.jarr ys)
  | JVal.jarr [], JVal.jarr [] => true
  | JVal.jobj ((k, v) :: fs), JVal.jobj ((k2, v2) :: gs) =>
    k == k2 && jbeq v v2 && jbeq (JVal.jobj fs) (JVal.jobj gs)
  | JVal.jobj [], JVal.jobj [] => true
  | _, _ => false

/-- Python truthiness of a JSON value. -/
def jtruthy : JVal → Bool
  | JVal.null => false
  | JVal.jbool b => b
  | JVal.jnum n => n != 0
  | JVal.jstr s => !s.isEmpty
  | JVal.jarr xs => !xs.isEmpty
  | JVal.jobj fs => !fs.isEmpty

/-- The Python exceptions Config.load can let escape. -/
inductive PyErr
  | attrError
  | typeError
  | keyError
deriving DecidableEq

/-- dict.get with a default: an AttributeError on any non-dict receiver. -/
def dget (v : JVal) (key : List Char) (dflt : JVal) : Except PyErr JVal :=
  match v with
  | JVal.jobj fs => Except.ok ((fs.lookup key).getD dflt)
  | _ => Except.error PyErr.attrError

/-- Subscripting v[key] with a string key. -/
def jsubscript (v : JVal) (key : List Char) : Except PyErr JVal :=
  match v with
  | JVal.jobj fs =>
    match fs.lookup key with
    | some x => Except.ok x
    | none => Except.error PyErr.keyError
  | _ => Except.error PyErr.typeError

/-- Python membership x in container on JSON values. -/
def jIn (x : JVal) (container : JVal) : Except PyErr Bool :=
  match container with
  | JVal.jarr xs => Except.ok (xs.any (fun y => jbeq x y))
  | JVal.jobj fs =>
    Except.ok (match x with
      | JVal.jstr s => fs.any (fun f => f.1 == s)
      | _ => false)
  | JVal.jstr s =>
    match x with
    | JVal.jstr t => Except.ok (containsSub t s)
    | _ => Except.error PyErr.typeError
  | _ => Except.error PyErr.typeError

/-- list.remove: delete the first equal element. -/
def jarrRemove : List JVal → JVal → List JVal
  | [], _ => []
  | y :: ys, x => if jbeq y x then ys else y :: jarrRemove ys x

/-- Deduplication performed by the Python set constructor. -/
def dedupJ : List JVal → List JVal
  | [] => []
  | x :: xs => x :: dedupJ (xs.filter (fun y => !jbeq x y))
termination_by l => l.length
decreasing_by
  simp only [List.length_cons]
  exact Nat.lt_succ_of_le (List.length_filter_le _ _)

/-- set(v) over a JSON value: arrays and strings and dict keys are
iterable, everything else raises TypeError. -/
def jvalToSet (v : JVal) : Except PyErr (List JVal) :=
  match v with
  | JVal.jarr xs => Except.ok (dedupJ xs)
  | JVal.jstr s => Except.ok (dedupJ (s.map (fun c => JVal.jstr [c])))
  | JVal.jobj fs => Except.ok (dedupJ (fs.map (fun f => JVal.jstr f.1)))
  | _ => Except.error PyErr.typeError

/-- clean_sources on the dynamically-typed fields right after loading:
with a truthy target, look up sources["channels"], test membership, and
remove the first occurrence. -/
def clean_sources_dyn (target sources : JVal) : Except PyErr JVal :=
  if !jtruthy target then Except.ok sources
  else
    match sources with
    | JVal.jobj fs => do
      let ch ← jsubscript (JVal.jobj fs) ('c' :: 'h' :: 'a' :: 'n' :: 'n' :: 'e' :: 'l' :: 's' :: [])
      let b ← jIn target ch
      if b then
        match ch with
        | JVal.jarr xs =>
          Except.ok (JVal.jobj (fs.map (fun f =>
            if f.1 == ('c' :: 'h' :: 'a' :: 'n' :: 'n' :: 'e' :: 'l' :: 's' :: [])
            then (f.1, JVal.jarr (jarrRemove xs target)) else f)))
        | _ => Except.error PyErr.attrError
      else Except.ok (JVal.jobj fs)
    | _ => jsubscript sources ('c' :: 'h' :: 'a' :: 'n' :: 'n' :: 'e' :: 'l' :: 's' :: []) >>= fun _ =>
        Except.error PyErr.typeError

/-- The four fields Config.load assigns, still dynamically typed. -/
structure DynConfig where
  sources : JVal
  keywords : JVal
  targetChannel : JVal
  sentHashes : List JVal

/-- The defaults set in the constructor before load runs. -/
def defaultDynConfig : DynConfig :=
  { sources := JVal.jobj
      [(('c' :: 'h' :: 'a' :: 'n' :: 'n' :: 'e' :: 'l' :: 's' :: []), JVal.jarr []),
       (('s' :: 'i' :: 't' :: 'e' :: 's' :: []), JVal.jarr [])],
    keywords := JVal.jarr [],
    targetChannel := JVal.null,
    sentHashes := [] }

/-- What the file system and JSON layer hand to Config.load. -/
inductive LoadOutcome
  | missingFile
  | parseFail
  | parsed (v : JVal)

/-- Config.load: FileNotFoundError and JSONDecodeError are caught and
leave the defaults; on a decoded document the dict.get calls, the set
constructor and clean_sources run unprotected, so their exceptions
escape to the caller. -/
def config_load (o : LoadOutcome) : Except PyErr DynConfig :=
  match o with
  | LoadOutcome.missingFile => Except.ok defaultDynConfig
  | LoadOutcome.parseFail => Except.ok defaultDynConfig
  | LoadOutcome.parsed data => do
    let sources ← dget data ('s' :: 'o' :: 'u' :: 'r' :: 'c' :: 'e' :: 's' :: [])
      (JVal.jobj
        [(('c' :: 'h' :: 'a' :: 'n' :: 'n' :: 'e' :: 'l' :: 's' :: []), JVal.jarr []),
         (('s' :: 'i' :: 't' :: 'e' :: 's' :: []), JVal.jarr [])])
    let keywords ← dget data ('k' :: 'e' :: 'y' :: 'w' :: 'o' :: 'r' :: 'd' :: 's' :: [])
      (JVal.jarr [])
    let target ← dget data
      ('t' :: 'a' :: 'r' :: 'g' :: 'e' :: 't' :: '_' :: 'c' :: 'h' :: 'a' :: 'n' :: 'n' :: 'e' :: 'l' :: [])
      JVal.null
    let sh ← dget data
      ('s' :: 'e' :: 'n' :: 't' :: '_' :: 'h' :: 'a' :: 's' :: 'h' :: 'e' :: 's' :: [])
      (JVal.jarr [])
    let sentHashes ← jvalToSet sh
    let sources2 ← clean_sources_dyn target sources
    Except.ok
      { sources := sources2, keywords := keywords, targetChannel := target,
        sentHashes := sentHashes }

theorem char_toNat_ofNat_of_lt {n : Nat} (h : n < 55296) : (Char.ofNat n).toNat = n := by
  rw [Char.ofNat, dif_pos (Or.inl h)]
  rfl

theorem lowerChar_idem (c : Char) : lowerChar (lowerChar c) = lowerChar c := by
  unfold lowerChar
  by_cases h : 65 ≤ c.toNat ∧ c.toNat ≤ 90
  · rw [if_pos h]
    have ht : (Char.ofNat (c.toNat + 32)).toNat = c.toNat + 32 :=
      char_toNat_ofNat_of_lt (by omega)
    rw [if_neg]
    rw [ht]
    omega
  · rw [if_neg h, if_neg h]

theorem lowerStr_idem (s : List Char) : lowerStr (lowerStr s) = lowerStr s := by
  unfold lowerStr
  rw [List.map_map]
  exact List.map_congr_left (fun c _ => lowerChar_idem c)

/-- Claim C1: the spec's sanitizer guarantee fails on the code: clean_text
removes each blacklist phrase in a single non-overlapping left-to-right
pass and removes URL tokens before the case-insensitive phrase pass, so a
removal can splice a blacklisted phrase, or an http:// link, back
together.  On the text aabb with blacklist [ab] the output is ab, which
still contains the blacklisted phrase; on the text httXp://a with
blacklist [x] the output is http://a, which contains http://.  The code's
own comments document the intent of removing links and blacklisted
phrases, so this is a defect of the code, not of the claim. -/
theorem clean_text_sanitizer_gap :
    clean_text ("aabb".toList) ["ab".toList] none = "ab".toList ∧
    containsCI ("ab".toList) (clean_text ("aabb".toList) ["ab".toList] none) = true ∧
    clean_text ("httXp://a".toList) ["x".toList] none = "http://a".toList ∧
    containsSub ("http://".toList)
      (clean_text ("httXp://a".toList) ["x".toList] none) = true := by
  exact ⟨by decide, by decide, by decide, by decide⟩

/-- Claim C2 counterexample: with an empty keyword list contains_keywords
returns false on every text, not true as claimed; the pass-through for an
unconfigured filter lives at the call sites, which test emptiness before
calling. -/
theorem contains_keywords_empty_is_false :
    contains_keywords ("hi".toList) [] = false := by decide

/-- Claim C2 (amended): contains_keywords returns false when the keyword list
is empty or the text is empty; otherwise it returns true exactly when
some keyword occurs case-insensitively as a substring of the text. -/
theorem contains_keywords_spec (t : List Char) (K : List (List Char)) :
    contains_keywords t K = true ↔
      t ≠ [] ∧ K ≠ [] ∧ ∃ kw ∈ K, containsSub (lowerStr kw) (lowerStr t) = true := by
  cases t with
  | nil => simp [contains_keywords]
  | cons c cs =>
    cases K with
    | nil => simp [contains_keywords]
    | cons k ks =>
      simp [contains_keywords, List.any_eq_true]

/-- Claim C6 counterexample: the outgoing site message carries the ellipsis
marker even when nothing was truncated: a five-character page yields
hello... although the snippet kept the whole text and the message is far
below the 4000-character bound. -/
theorem site_message_ellipsis_without_truncation :
    site_message ("hello".toList) = "hello...".toList ∧
    ("hello".toList).length < 1000 ∧
    (site_message ("hello".toList)).length < 4000 := by
  exact ⟨by decide, by decide, by decide⟩

/-- Claim C6 (amended): the candidate snippet is the first 1000 characters of
the extracted text, and the outgoing site message is always that snippet
with an ellipsis marker appended; the message never exceeds 1003
characters, so the 4000-character truncation branch never fires. -/
theorem site_message_spec (t : List Char) :
    site_message t = t.take 1000 ++ ('.' :: '.' :: '.' :: []) := by
  have h : ¬ 4000 < (t.take 1000 ++ ('.' :: '.' :: '.' :: [])).length := by
    simp only [List.length_append, List.length_take, List.length_cons, List.length_nil]
    omega
  simp [site_message, h]

/-- Claim C7 counterexample: a persisted file holding the valid JSON document
[] parses fine, but Config.load then calls dict.get on a list and an
AttributeError escapes to the caller, contradicting never raises. -/
theorem config_load_raises_on_array_document :
    config_load (LoadOutcome.parsed (JVal.jarr [])) = Except.error PyErr.attrError := rfl

/-- Claim C7 (amended): Config.load returns normally with the empty defaults
for a missing file and for a JSON syntax failure, but it can raise for a
well-formed state document of unexpected shape: every document whose top
level is not an object makes load raise AttributeError. -/
theorem config_load_spec :
    config_load LoadOutcome.missingFile = Except.ok defaultDynConfig ∧
    config_load LoadOutcome.parseFail = Except.ok defaultDynConfig ∧
    ∀ v : JVal, (∀ fs, v ≠ JVal.jobj fs) →
      config_load (LoadOutcome.parsed v) = Except.error PyErr.attrError := by
  refine ⟨rfl, rfl, ?_⟩
  intro v hv
  cases v with
  | null => rfl
  | jbool b => rfl
  | jnum n => rfl
  | jstr s => rfl
  | jarr xs => rfl
  | jobj fs => exact absurd rfl (hv fs)

theorem config_load_spec_witness :
    config_load (LoadOutcome.parsed (JVal.jnum 3)) = Except.error PyErr.attrError :=
  config_load_spec.2.2 (JVal.jnum 3) (fun _ h => JVal.noConfusion h)

/-- Claim C8 counterexample: clean_sources uses list.remove, which deletes only
the first occurrence, so loading a state document whose channel list
holds the destination twice leaves the destination among the sources
after load and save. -/
theorem clean_sources_keeps_duplicate_destination :
    (Cfg.save
      { channels := ["@t".toList, "@t".toList], sites := [], keywords := [],
        targetChannel := some ("@t".toList), sentHashes := [] }).channels
      = ["@t".toList] ∧
    ("@t".toList) ∈ (Cfg.save
      { channels := ["@t".toList, "@t".toList], sites := [], keywords := [],
        targetChannel := some ("@t".toList), sentHashes := [] }).channels := by
  exact ⟨by decide, by decide⟩

/-- Claim C8 (amended): on every load and every save clean_sources removes the
first occurrence of the destination from the channel list; whenever the
destination is set, non-empty and occurs at most once beforehand (which
holds for every list the command handlers build, since they refuse
duplicates), it is absent from the sources afterwards. -/
theorem clean_sources_excludes_unique_destination (c : Cfg) (t : List Char)
    (htgt : c.targetChannel = some t) (hne : t ≠ [])
    (hcount : c.channels.count t ≤ 1) :
    t ∉ (Cfg.save c).channels ∧ t ∉ (Cfg.load_ok c).channels := by
  have hemp : t.isEmpty = false := by
    cases t with
    | nil => exact absurd rfl hne
    | cons a l => rfl
  have key : t ∉ (Cfg.clean_sources c).channels := by
    by_cases hm : t ∈ c.channels
    · have h2 : t ∉ c.channels.erase t := by
        intro habs
        have hp : 0 < (c.channels.erase t).count t := List.count_pos_iff.mpr habs
        rw [List.count_erase_self] at hp
        omega
      simp only [Cfg.clean_sources, htgt, hemp, Bool.not_false, Bool.true_and]
      simp only [List.contains, List.elem_eq_mem, hm, decide_eq_true_eq, if_true, decide_True]
      exact h2
    · simp only [Cfg.clean_sources, htgt, hemp, Bool.not_false, Bool.true_and]
      rw [show c.channels.contains t = false by
        rw [List.contains, List.elem_eq_mem, decide_eq_false hm]]
      simp only [Bool.false_eq_true, if_false]
      exact hm
  exact ⟨key, key⟩

theorem clean_sources_excludes_unique_destination_witness :
    ("@t".toList) ∉ (Cfg.save
      { channels := ["@a".toList, "@t".toList], sites := [], keywords := [],
        targetChannel := some ("@t".toList), sentHashes := [] }).channels ∧
    ("@t".toList) ∉ (Cfg.load_ok
      { channels := ["@a".toList, "@t".toList], sites := [], keywords := [],
        targetChannel := some ("@t".toList), sentHashes := [] }).channels :=
  clean_sources_excludes_unique_destination
    { channels := ["@a".toList, "@t".toList], sites := [], keywords := [],
      targetChannel := some ("@t".toList), sentHashes := [] }
    ("@t".toList) rfl (by decide) (by decide)

/-- Claim C5: start_parsing_handler accepts only from the idle state with a
configured destination.  Without a truthy destination the handler replies
with the rejection and leaves the state untouched, so an idle loop stays
idle with no task scheduled; with a destination but the flag already
raised it replies already running and changes nothing; otherwise it
raises the flag and schedules the loop task. -/
theorem start_parsing_handler_spec (st : BotState) :
    (truthyTarget st.targetChannel = false →
      start_parsing_handler st = (st, StartReply.noTarget)) ∧
    (truthyTarget st.targetChannel = true → st.parsingActive = true →
      start_parsing_handler st = (st, StartReply.alreadyRunning)) ∧
    (truthyTarget st.targetChannel = true → st.parsingActive = false →
      start_parsing_handler st =
        ({ st with parsingActive := true, taskScheduled := true }, StartReply.started)) := by
  refine ⟨?_, ?_, ?_⟩
  · intro h
    simp [start_parsing_handler, h]
  · intro h ha
    simp [start_parsing_handler, h, ha]
  · intro h ha
    simp [start_parsing_handler, h, ha]

theorem start_parsing_handler_spec_witness :
    start_parsing_handler
      { targetChannel := none, parsingActive := false, taskScheduled := false } =
      ({ targetChannel := none, parsingActive := false, taskScheduled := false },
        StartReply.noTarget) ∧
    start_parsing_handler
      { targetChannel := some ("@c".toList), parsingActive := true, taskScheduled := true } =
      ({ targetChannel := some ("@c".toList), parsingActive := true, taskScheduled := true },
        StartReply.alreadyRunning) ∧
    start_parsing_handler
      { targetChannel := some ("@c".toList), parsingActive := false, taskScheduled := false } =
      ({ targetChannel := some ("@c".toList), parsingActive := true, taskScheduled := true },
        StartReply.started) :=
  ⟨(start_parsing_handler_spec _).1 (by decide),
   (start_parsing_handler_spec _).2.1 (by decide) rfl,
   (start_parsing_handler_spec _).2.2 (by decide) rfl⟩

/-- Claim C10: add_blacklist is idempotent and preserves freedom from
duplicates (INSERT OR IGNORE on the UNIQUE phrase column), and every
string returned by get_blacklist is lower-cased. -/
theorem add_blacklist_spec (p : List Char) (tbl : List (List Char)) :
    add_blacklist p (add_blacklist p tbl) = add_blacklist p tbl ∧
    (tbl.Nodup → (add_blacklist p tbl).Nodup) ∧
    (∀ s ∈ get_blacklist tbl, lowerStr s = s) := by
  refine ⟨?_, ?_, ?_⟩
  · by_cases h : p ∈ tbl
    · simp [add_blacklist, h]
    · have hmem : p ∈ tbl ++ [p] := List.mem_append_right tbl (List.mem_singleton.mpr rfl)
      simp [add_blacklist, h, hmem]
  · intro hnd
    by_cases h : p ∈ tbl
    · simpa [add_blacklist, h] using hnd
    · rw [add_blacklist, if_neg h]
      rw [List.nodup_append]
      exact ⟨hnd, List.nodup_singleton p,
        fun a ha hb => h (by rwa [List.mem_singleton.mp hb] at ha)⟩
  · intro s hs
    rcases List.mem_map.mp hs with ⟨x, _, hx⟩
    rw [← hx]
    exact lowerStr_idem x

theorem add_blacklist_spec_witness :
    add_blacklist ("Spam".toList) (add_blacklist ("Spam".toList) []) =
      add_blacklist ("Spam".toList) [] ∧
    (add_blacklist ("Spam".toList) []).Nodup :=
  ⟨(add_blacklist_spec ("Spam".toList) []).1,
   (add_blacklist_spec ("Spam".toList) []).2.1 List.nodup_nil⟩

theorem processChanMsg_eligible (hashF : List Char → List Char)
    (mediaS : Option MediaKind → List Char) (kws hashes : List (List Char))
    (m : ChanMsg) (sr fb : SendResult)
    (hm : ¬(m.message = [] ∧ m.media = none))
    (hh : chanHash hashF mediaS m ∉ hashes)
    (hk : kws = [] ∨ contains_keywords (chanClean m) kws = true) :
    processChanMsg hashF mediaS kws hashes m sr fb =
      match sr with
      | SendResult.ok =>
        { sentHashes := chanHash hashF mediaS m :: hashes, saved := true,
          pubs := [chanAct m], slept := none }
      | SendResult.floodWait s =>
        { sentHashes := hashes, saved := false, pubs := [chanAct m], slept := some s }
      | SendResult.failed =>
        if (chanClean m).isEmpty then
          { sentHashes := hashes, saved := false, pubs := [chanAct m], slept := none }
        else
          { sentHashes := hashes, saved := false,
            pubs := [chanAct m, PubAction.fallbackText ((chanClean m).take 4000)],
            slept := none } := by
  have h1 : ¬ ((m.message.isEmpty && m.media.isNone) = true) := by
    intro hb
    rw [Bool.and_eq_true] at hb
    exact hm ⟨List.isEmpty_iff.mp hb.1, Option.isNone_iff_eq_none.mp hb.2⟩
  have h3 : (kws.isEmpty || contains_keywords (chanClean m) kws) = true := by
    rcases hk with h | h
    · rw [h]
      rfl
    · rw [h, Bool.or_true]
  unfold processChanMsg
  rw [if_neg h1, if_neg hh, if_pos h3]

theorem processSite_eligible (hashF : List Char → List Char)
    (kws hashes : List (List Char)) (pageText : List Char) (sr : SendResult)
    (hp : pageText ≠ [])
    (hh : hashF (pageText.take 1000) ∉ hashes)
    (hk : kws = [] ∨ contains_keywords pageText kws = true) :
    processSite hashF kws hashes pageText sr =
      match sr with
      | SendResult.ok =>
        { sentHashes := hashF (pageText.take 1000) :: hashes, saved := true,
          pubs := [PubAction.sendMessage (site_message pageText)], slept := none }
      | SendResult.floodWait s =>
        { sentHashes := hashes, saved := false,
          pubs := [PubAction.sendMessage (site_message pageText)], slept := some s }
      | SendResult.failed =>
        { sentHashes := hashes, saved := false,
          pubs := [PubAction.sendMessage (site_message pageText)], slept := none } := by
  have h1 : ¬ (pageText.isEmpty = true) := by
    intro hb
    exact hp (List.isEmpty_iff.mp hb)
  have h3 : (kws.isEmpty || contains_keywords pageText kws) = true := by
    rcases hk with h | h
    · rw [h]
      rfl
    · rw [h, Bool.or_true]
  unfold processSite
  rw [if_neg h1, if_neg hh, if_pos h3]

/-- Claim C3: a flood-waited publish leaves the ledger and the persisted
configuration untouched (for a channel item and for a site item alike),
the loop only sleeps for the provider-given duration; because the state
is unchanged, re-processing the same item still attempts the publish,
and the fingerprint is recorded only when the send succeeds. -/
theorem floodwait_not_recorded_and_retried (hashF : List Char → List Char)
    (mediaS : Option MediaKind → List Char) (kws hashes : List (List Char))
    (m : ChanMsg) (s : Nat) (fb : SendResult) (pageText : List Char) (s2 : Nat)
    (hm : ¬(m.message = [] ∧ m.media = none))
    (hh : chanHash hashF mediaS m ∉ hashes)
    (hk : kws = [] ∨ contains_keywords (chanClean m) kws = true)
    (hp : pageText ≠ [])
    (hh2 : hashF (pageText.take 1000) ∉ hashes)
    (hk2 : kws = [] ∨ contains_keywords pageText kws = true) :
    processChanMsg hashF mediaS kws hashes m (SendResult.floodWait s) fb =
      { sentHashes := hashes, saved := false, pubs := [chanAct m], slept := some s } ∧
    (∀ sr fb2, (processChanMsg hashF mediaS kws hashes m sr fb2).pubs ≠ []) ∧
    (∀ sr fb2, (processChanMsg hashF mediaS kws hashes m sr fb2).sentHashes ≠ hashes →
      sr = SendResult.ok) ∧
    processSite hashF kws hashes pageText (SendResult.floodWait s2) =
      { sentHashes := hashes, saved := false,
        pubs := [PubAction.sendMessage (site_message pageText)], slept := some s2 } ∧
    (∀ sr, (processSite hashF kws hashes pageText sr).pubs ≠ []) ∧
    (∀ sr, (processSite hashF kws hashes pageText sr).sentHashes ≠ hashes →
      sr = SendResult.ok) := by
  refine ⟨?_, ?_, ?_, ?_, ?_, ?_⟩
  · rw [processChanMsg_eligible hashF mediaS kws hashes m _ fb hm hh hk]
  · intro sr fb2
    rw [processChanMsg_eligible hashF mediaS kws hashes m sr fb2 hm hh hk]
    cases sr with
    | ok => simp
    | floodWait s3 => simp
    | failed =>
      by_cases hce : (chanClean m).isEmpty
      · simp [hce]
      · simp [hce]
  · intro sr fb2 hne
    rw [processChanMsg_eligible hashF mediaS kws hashes m sr fb2 hm hh hk] at hne
    cases sr with
    | ok => rfl
    | floodWait s3 => exact absurd rfl hne
    | failed =>
      by_cases hce : (chanClean m).isEmpty
      · rw [if_pos hce] at hne
        exact absurd rfl hne
      · rw [if_neg hce] at hne
        exact absurd rfl hne
  · rw [processSite_eligible hashF kws hashes pageText _ hp hh2 hk2]
  · intro sr
    rw [processSite_eligible hashF kws hashes pageText sr hp hh2 hk2]
    cases sr with
    | ok => simp
    | floodWait s3 => simp
    | failed => simp
  · intro sr hne
    rw [processSite_eligible hashF kws hashes pageText sr hp hh2 hk2] at hne
    cases sr with
    | ok => rfl
    | floodWait s3 => exact absurd rfl hne
    | failed => exact absurd rfl hne

/-- A sample text-only channel message for concrete instantiations. -/
def msgX : ChanMsg :=
  { message := "x".toList, text := "x".toList, caption := [], media := none }

/-- A sample digest function for concrete instantiations. -/
def hashConst : List Char → List Char := fun _ => "h".toList

/-- A sample str(msg.media) rendering for concrete instantiations. -/
def mediaNone : Option MediaKind → List Char := fun _ => "None".toList

theorem floodwait_not_recorded_and_retried_witness :
    processChanMsg hashConst mediaNone [] [] msgX (SendResult.floodWait 7) SendResult.ok =
      { sentHashes := [], saved := false, pubs := [chanAct msgX], slept := some 7 } :=
  (floodwait_not_recorded_and_retried hashConst mediaNone [] [] msgX 7 SendResult.ok
    ("p".toList) 3 (by decide) (by decide) (Or.inl rfl) (by decide) (by decide)
    (Or.inl rfl)).1

/-- Claim C4: an item whose computed fingerprint is already in sent_hashes when
it is scanned triggers no publisher call at all, and leaves the ledger,
the persistence flag and the sleep request untouched; this holds for
channel items and site items alike, whatever the send outcome would have
been. -/
theorem known_fingerprint_never_published (hashF : List Char → List Char)
    (mediaS : Option MediaKind → List Char) (kws hashes : List (List Char))
    (m : ChanMsg) (sr fb : SendResult) (pageText : List Char) (sr2 : SendResult)
    (hc : chanHash hashF mediaS m ∈ hashes)
    (hs : hashF (pageText.take 1000) ∈ hashes) :
    processChanMsg hashF mediaS kws hashes m sr fb =
      { sentHashes := hashes, saved := false, pubs := [], slept := none } ∧
    processSite hashF kws hashes pageText sr2 =
      { sentHashes := hashes, saved := false, pubs := [], slept := none } := by
  constructor
  · unfold processChanMsg
    by_cases h1 : (m.message.isEmpty && m.media.isNone) = true
    · rw [if_pos h1]
    · rw [if_neg h1, if_pos hc]
  · unfold processSite
    by_cases h1 : pageText.isEmpty = true
    · rw [if_pos h1]
    · rw [if_neg h1, if_pos hs]

theorem known_fingerprint_never_published_witness :
    processChanMsg hashConst mediaNone [] ["h".toList] msgX SendResult.ok SendResult.ok =
      { sentHashes := ["h".toList], saved := false, pubs := [], slept := none } ∧
    processSite hashConst [] ["h".toList] ("p".toList) SendResult.ok =
      { sentHashes := ["h".toList], saved := false, pubs := [], slept := none } :=
  known_fingerprint_never_published hashConst mediaNone [] ["h".toList] msgX
    SendResult.ok SendResult.ok ("p".toList) SendResult.ok (by decide) (by decide)

/-- Claim C9: when the primary channel publish fails with a non-rate-limit
error and the plain-text fallback is attempted, the ledger is unchanged
and the configuration is not persisted, whatever the fallback outcome
(the fallback result parameter is universally quantified, so this covers
a successful fallback); since the fingerprint is never recorded, a later
pass over the unchanged state attempts the publish again. -/
theorem fallback_send_not_recorded (hashF : List Char → List Char)
    (mediaS : Option MediaKind → List Char) (kws hashes : List (List Char))
    (m : ChanMsg) (fb : SendResult)
    (hm : ¬(m.message = [] ∧ m.media = none))
    (hh : chanHash hashF mediaS m ∉ hashes)
    (hk : kws = [] ∨ contains_keywords (chanClean m) kws = true)
    (hcl : chanClean m ≠ []) :
    processChanMsg hashF mediaS kws hashes m SendResult.failed fb =
      { sentHashes := hashes, saved := false,
        pubs := [chanAct m, PubAction.fallbackText ((chanClean m).take 4000)],
        slept := none } ∧
    (∀ sr2 fb2, (processChanMsg hashF mediaS kws hashes m sr2 fb2).pubs ≠ []) := by
  have hce : ¬ ((chanClean m).isEmpty = true) := fun hb => hcl (List.isEmpty_iff.mp hb)
  constructor
  · rw [processChanMsg_eligible hashF mediaS kws hashes m _ fb hm hh hk]
    rw [if_neg hce]
  · intro sr2 fb2
    rw [processChanMsg_eligible hashF mediaS kws hashes m sr2 fb2 hm hh hk]
    cases sr2 with
    | ok => simp
    | floodWait s3 => simp
    | failed =>
      rw [if_neg hce]
      simp

theorem fallback_send_not_recorded_witness :
    processChanMsg hashConst mediaNone [] [] msgX SendResult.failed SendResult.ok =
      { sentHashes := [], saved := false,
        pubs := [chanAct msgX, PubAction.fallbackText ((chanClean msgX).take 4000)],
        slept := none } :=
  (fallback_send_not_recorded hashConst mediaNone [] [] msgX SendResult.ok
    (by decide) (by decide) (Or.inl rfl) (by decide)).1
